import Mathlib

/-!
Shallow embedding of the DDMR-VFH-Collision-Avoidance navigation core:
the command dispatcher (src/modules/arduino_comm.py), the avoidance
controller and sector classifier (src/modules/kinect_vfh.py), and the
decision arbiter plus control-loop dispatch (src/main.py).

Python strings are embedded as `String`; a Python value that may be
`None` is embedded as an `Option`.  Wall-clock times and distances that
the code manipulates as floats are embedded as exact rationals (for the
controller timing) and reals (for the depth geometry).  A call that may
raise inside `serial.write` is embedded by passing a boolean `writeOk`
oracle saying whether that write raises.
-/

namespace DDMRVFH

/-! ### Command dispatcher — src/modules/arduino_comm.py -/

/-- Dispatcher state: `last_command` (`None` initially), `connected`, and
whether `self.serial` is non-`None` and open (`serial.is_open`). -/
structure ArduinoState where
  last_command : Option String
  connected : Bool
  serial_open : Bool
deriving DecidableEq, Repr

/-- `valid_commands` list of `send_command`. -/
def valid_commands : List String := ["FORWARD", "LEFT", "RIGHT", "STOP"]

/-- Result of one `send_command` call: returned boolean, new state, and the
list of commands for which `serial.write` was invoked during the call
(a write that raises is still an invoked write). -/
structure SendResult where
  ok : Bool
  state : ArduinoState
  writes : List String
deriving DecidableEq, Repr

/-- `ArduinoComm.send_command`.  `writeOk` tells whether the
`serial.write` call, if reached, succeeds (does not raise). -/
def send_command (st : ArduinoState) (command : String) (writeOk : Bool) :
    SendResult :=
  if command ∉ valid_commands then
    ⟨false, st, []⟩
  else if some command = st.last_command then
    ⟨true, st, []⟩
  else if st.connected ∧ st.serial_open then
    if writeOk then
      ⟨true, { st with last_command := some command }, [command]⟩
    else
      ⟨false, { st with connected := false }, [command]⟩
  else
    ⟨true, { st with last_command := some command }, []⟩

/-- `ArduinoComm.send_command` as called from the main loop, where the
argument may be Python `None` (never in `valid_commands`). -/
def send_command_py (st : ArduinoState) (command : Option String)
    (writeOk : Bool) : SendResult :=
  match command with
  | some c => send_command st c writeOk
  | none => ⟨false, st, []⟩

/-- `ArduinoComm.close`: if the serial link is present and open, a
`write(b"STOP\n")` is attempted (whether or not it raises), then the
state is reset (`serial = None`, `connected = False`,
`last_command = None`). -/
def close (st : ArduinoState) : ArduinoState × List String :=
  (⟨none, false, false⟩, if st.serial_open then ["STOP"] else [])

/-! ### Avoidance controller — src/modules/kinect_vfh.py -/

/-- `dict.get(k, dflt)` on an association list (Python dicts have
distinct keys; lookup returns the value of the first matching key). -/
def dictGetD (d : List (String × String)) (k dflt : String) : String :=
  match d.find? (fun p => p.1 == k) with
  | some p => p.2
  | none => dflt

/-- `dict.values()` on an association list. -/
def dictValues (d : List (String × String)) : List String :=
  d.map Prod.snd

/-- `self.sector_labels`. -/
def sector_labels : List String :=
  ["Kiri", "Kiri-Depan", "Tengah", "Kanan-Depan", "Kanan"]

/-- Mutable controller state owned by `KinectVFH`:
`self.current_command`, `self.command_start_time`,
`self.turn_direction`. -/
structure VFHState where
  current_command : Option String
  command_start_time : ℚ
  turn_direction : Option String
deriving DecidableEq, Repr

/-- `KinectVFH.__init__` controller state: `current_command = "FORWARD"`,
`command_start_time = time.time()`, `turn_direction = None`. -/
def initVFHState (t0 : ℚ) : VFHState :=
  ⟨some "FORWARD", t0, none⟩

/-- The `self.turn_direction` assignment chain of `get_vfh_command`
(lines 156-166); when no branch fires the old value is kept. -/
def pending_turn (old : Option String)
    (sector_status : List (String × String)) : Option String :=
  if dictGetD sector_status "Kiri" "Low" == "High"
      ∨ dictGetD sector_status "Kiri-Depan" "Low" == "High" then
    some "RIGHT"
  else if dictGetD sector_status "Kanan" "Low" == "High"
      ∨ dictGetD sector_status "Kanan-Depan" "Low" == "High" then
    some "LEFT"
  else if dictGetD sector_status "Tengah" "Low" == "High" then
    if dictGetD sector_status "Kiri-Depan" "Low" == "Low" then
      some "LEFT"
    else
      some "RIGHT"
  else
    old

/-- `KinectVFH.get_vfh_command`, with `now = time.time()` passed in.
Returns the updated controller state and the returned command. -/
def get_vfh_command (turn_duration forward_duration : ℚ) (st : VFHState)
    (sector_status : List (String × String)) (now : ℚ) :
    VFHState × Option String :=
  let elapsed := now - st.command_start_time
  let obstacle_detected := (dictValues sector_status).any (· == "High")
  if ¬ obstacle_detected then
    let st0 :=
      if st.current_command ≠ some "FORWARD" then
        { st with current_command := some "FORWARD",
                  command_start_time := now }
      else st
    (st0, st0.current_command)
  else
    let st1 := { st with
      turn_direction := pending_turn st.turn_direction sector_status }
    let st2 :=
      if st1.current_command = some "FORWARD" then
        if elapsed ≥ forward_duration then
          { st1 with current_command := st1.turn_direction,
                     command_start_time := now }
        else st1
      else if st1.current_command = some "LEFT"
          ∨ st1.current_command = some "RIGHT" then
        if elapsed ≥ turn_duration then
          { st1 with current_command := some "FORWARD",
                     command_start_time := now }
        else st1
      else st1
    (st2, st2.current_command)

/-- A sequence of `get_vfh_command` calls (sector status, timestamp),
threading the controller state. -/
def runVFH (turn_duration forward_duration : ℚ) (st : VFHState)
    (calls : List (List (String × String) × ℚ)) : VFHState :=
  calls.foldl
    (fun s c => (get_vfh_command turn_duration forward_duration s c.1 c.2).1)
    st

/-- `KinectVFH.is_all_clear`. -/
def is_all_clear (sector_status : List (String × String)) : Bool :=
  (dictValues sector_status).all (· == "Low")

/-! ### Decision arbiter and control loop — src/main.py -/

/-- The fields of the ArUco detection result that `decision_logic`
reads: `detected` and `distance` (possibly `None`). -/
structure ArucoResult where
  detected : Bool
  distance : Option ℚ
deriving DecidableEq, Repr

/-- Configuration values `decision_logic` reads from `Config`. -/
structure ControlConfig where
  approach_distance : ℚ
  search_mode_behavior : String
deriving DecidableEq, Repr

/-- `RobotController.decision_logic`: given `self.force_mode` and the
cycle inputs, returns the final command together with the `self.mode`
label it assigns.  The `sector_status` argument is part of the Python
signature but is never read by the body. -/
def decision_logic (force_mode : Option String) (cfg : ControlConfig)
    (path_clear : Bool) (sector_status : List (String × String))
    (vfh_cmd : Option String) (aruco_result : ArucoResult)
    (aruco_cmd : Option String) : Option String × String :=
  if force_mode = some "VFH_ONLY" then
    (vfh_cmd, "VFH_ACTIVE")
  else if force_mode = some "ARUCO_ONLY" then
    if aruco_result.detected then
      (aruco_cmd, "ARUCO_TRACKING")
    else
      (some "STOP", "SEARCH")
  else if ¬ path_clear then
    (vfh_cmd, "VFH_ACTIVE")
  else if aruco_result.detected then
    match aruco_result.distance with
    | some d =>
      if d < cfg.approach_distance then
        (some "STOP", "ARUCO_REACHED")
      else
        (aruco_cmd, "ARUCO_TRACKING")
    | none => (aruco_cmd, "ARUCO_TRACKING")
  else
    (if cfg.search_mode_behavior = "STOP" then some "STOP" else some "STOP",
      "SEARCH")

/-- Loop-owned state of `RobotController` that the dispatch path and the
keyboard handler touch: `self.mode`, `self.current_command`,
`self.force_mode`, and the dispatcher state. -/
structure ControlState where
  mode : String
  current_command : Option String
  force_mode : Option String
  arduino : ArduinoState
deriving DecidableEq, Repr

/-- `RobotController.__init__` loop state: `mode = "INIT"`,
`current_command = "STOP"`, `force_mode = None`. -/
def initControlState (ard : ArduinoState) : ControlState :=
  ⟨"INIT", some "STOP", none, ard⟩

/-- `RobotController.handle_keyboard` (key codes: q=113, 1=49, 2=50,
3=51, space=32).  Returns the new state, the commands passed to
`send_command` while handling the key, and whether the loop continues. -/
def handle_keyboard (st : ControlState) (key : ℕ) (writeOk : Bool) :
    ControlState × List (Option String) × Bool :=
  if key = 113 then
    (st, [], false)
  else if key = 49 then
    ({ st with force_mode := some "VFH_ONLY" }, [], true)
  else if key = 50 then
    ({ st with force_mode := some "ARUCO_ONLY" }, [], true)
  else if key = 51 then
    ({ st with force_mode := none }, [], true)
  else if key = 32 then
    let r := send_command st.arduino "STOP" writeOk
    ({ st with arduino := r.state }, [some "STOP"], true)
  else
    (st, [], true)

/-- The per-cycle sensed inputs of the main loop (valid frames assumed),
plus the key read by `cv2.waitKey` and the write oracle. -/
structure CycleInput where
  path_clear : Bool
  sector_status : List (String × String)
  vfh_cmd : Option String
  aruco : ArucoResult
  aruco_cmd : Option String
  key : ℕ
  writeOk : Bool
deriving DecidableEq, Repr

/-- One iteration of `RobotController.run`'s dispatch logic: run
`decision_logic`, invoke `send_command` only when the final command
differs from `self.current_command` (then update it), then handle the
keyboard.  Returns the new state, the list of commands passed to
`send_command` this cycle, and whether the loop continues. -/
def run_cycle (cfg : ControlConfig) (st : ControlState) (inp : CycleInput) :
    ControlState × List (Option String) × Bool :=
  let dm := decision_logic st.force_mode cfg inp.path_clear inp.sector_status
    inp.vfh_cmd inp.aruco inp.aruco_cmd
  let final := dm.1
  let st1 : ControlState := { st with mode := dm.2 }
  let arb :=
    if final ≠ st1.current_command then
      let r := send_command_py st1.arduino final inp.writeOk
      ({ st1 with arduino := r.state, current_command := final },
        [final])
    else
      (st1, ([] : List (Option String)))
  let kb := handle_keyboard arb.1 inp.key inp.writeOk
  (kb.1, arb.2 ++ kb.2.1, kb.2.2)

/-! ### Concrete sector statuses used in the spec scenarios -/

/-- Scenario status: left-front sector Obstructed, all others Clear. -/
def ssLeftFront : List (String × String) :=
  [("Kiri", "Low"), ("Kiri-Depan", "High"), ("Tengah", "Low"),
    ("Kanan-Depan", "Low"), ("Kanan", "Low")]

/-- Scenario status: every sector Clear. -/
def ssAllClear : List (String × String) :=
  [("Kiri", "Low"), ("Kiri-Depan", "Low"), ("Tengah", "Low"),
    ("Kanan-Depan", "Low"), ("Kanan", "Low")]

/-! ### Sector classifier — `KinectVFH.analyze_sectors`

The depth frame is a 2D grid (list of rows) of readings in meters; zero
means "no return".  The float geometry (pinhole backprojection, yaw
rotation, `np.arctan2`, reduction modulo pi) is embedded over the
reals. -/

noncomputable section

/-- `np.arctan2 y x`: the angle of the point `(x, y)`. -/
def atan2 (y x : ℝ) : ℝ := Complex.arg ⟨x, y⟩

/-- Python `a % b` on floats (sign of the divisor; for `b > 0` the
result lies in `[0, b)`). -/
def pymod (a b : ℝ) : ℝ := a - b * ⌊a / b⌋

/-- The intrinsic and configuration fields of `KinectVFH` used by
`analyze_sectors` (`self.fx`, `self.cx`, `self.threshold_distance`,
`self.num_sectors`, `self.angle_y`). -/
structure VFHGeom where
  fx : ℝ
  cx : ℝ
  threshold_distance : ℝ
  num_sectors : ℕ
  angle_y : ℝ

/-- The azimuth bin value of a valid pixel in column `c` with depth `z`:
backproject `x = (c - cx) * z / fx`, rotate `(x, z)` by
`radians(angle_y)`, take `arctan2(x_rot, z_rot) % pi`.  The row index is
not used for the azimuth. -/
def thetaPoint (g : VFHGeom) (c : ℕ) (z : ℝ) : ℝ :=
  let x := ((c : ℝ) - g.cx) * z / g.fx
  let th := g.angle_y * Real.pi / 180
  let x_rot := Real.cos th * x + Real.sin th * z
  let z_rot := -Real.sin th * x + Real.cos th * z
  pymod (atan2 x_rot z_rot) Real.pi

/-- The entry of the depth grid at row `r`, column `c`, if present. -/
def depthAt (depth : List (List ℝ)) (r c : ℕ) : Option ℝ :=
  depth[r]?.bind (fun row => row[c]?)

/-- The valid points of the grid: `(row, col, z)` for every reading
`z > 0`. -/
def validPoints (depth : List (List ℝ)) : List (ℕ × ℕ × ℝ) :=
  (depth.enum.map (fun rc =>
    rc.2.enum.filterMap (fun cz =>
      if 0 < cz.2 then some (rc.1, cz.1, cz.2) else none))).flatten

/-- The original (unrotated) depths of the valid points whose azimuth
falls in sector `i`'s bin `[i*pi/N, (i+1)*pi/N)`. -/
def sectorDepths (g : VFHGeom) (depth : List (List ℝ)) (i : ℕ) : List ℝ :=
  (validPoints depth).filterMap (fun p =>
    if (i : ℝ) * (Real.pi / (g.num_sectors : ℝ)) ≤ thetaPoint g p.2.1 p.2.2
        ∧ thetaPoint g p.2.1 p.2.2
          < ((i : ℝ) + 1) * (Real.pi / (g.num_sectors : ℝ))
    then some p.2.2 else none)

/-- The status the classifier assigns to sector `i`: "High" iff the bin
has points and their minimum original depth is below the threshold. -/
def sectorStatusOf (g : VFHGeom) (depth : List (List ℝ)) (i : ℕ) : String :=
  match (sectorDepths g depth i).min? with
  | some m => if m < g.threshold_distance then "High" else "Low"
  | none => "Low"

/-- `KinectVFH.analyze_sectors`: for an absent frame every labelled
sector is "Low"; otherwise sector `i` gets `sectorStatusOf i`,
enumerating `sector_labels`. -/
def analyze_sectors (g : VFHGeom) (depth_frame : Option (List (List ℝ))) :
    List (String × String) :=
  match depth_frame with
  | none => sector_labels.map (fun label => (label, "Low"))
  | some depth =>
    sector_labels.enum.map (fun il => (il.2, sectorStatusOf g depth il.1))

end

/-! ### Dispatcher theorems (claims C1, C3, C7) -/

/-- Claim C1 is false on the code: with a connected, open link, last
command STOP, sending the valid command FORWARD while the write raises
leaves `connected = false` but does NOT update `last_command` to the
attempted command (it stays STOP), and a subsequent identical FORWARD is
processed again (it updates `last_command`) rather than being
deduplicated as an already-accepted command. -/
theorem claim_C1_counterexample :
    (send_command ⟨some "STOP", true, true⟩ "FORWARD" false).state.connected
        = false
    ∧ (send_command ⟨some "STOP", true, true⟩ "FORWARD" false).state.last_command
        = some "STOP"
    ∧ ¬ (send_command ⟨some "STOP", true, true⟩ "FORWARD"
          false).state.last_command = some "FORWARD"
    ∧ (send_command
        (send_command ⟨some "STOP", true, true⟩ "FORWARD" false).state
        "FORWARD" true).state.last_command = some "FORWARD" := by
  decide

/-- Claim C1 amended: for every call to `send_command` with a valid
command different from `last_command` while the link is connected and
open, if the serial transmission raises then the call returns failure,
`connected` becomes false, and `last_command` is left unchanged (the
attempted command is not recorded, so a subsequent identical command is
not deduplicated). -/
theorem claim_C1_amended (st : ArduinoState) (cmd : String)
    (hv : cmd ∈ valid_commands) (hne : some cmd ≠ st.last_command)
    (hc : st.connected = true) (hs : st.serial_open = true) :
    send_command st cmd false
      = ⟨false, { st with connected := false }, [cmd]⟩ := by
  simp [send_command, hv, hne, hc, hs]

/-- Witness for the amended claim C1 at a concrete state. -/
theorem claim_C1_amended_witness :
    send_command ⟨some "STOP", true, true⟩ "FORWARD" false
      = ⟨false, ⟨some "STOP", false, true⟩, ["FORWARD"]⟩ :=
  claim_C1_amended ⟨some "STOP", true, true⟩ "FORWARD" (by decide)
    (by decide) rfl rfl

/-- Claim C3: `close` always resets the dispatcher state
(`serial = None`, `connected = false`, `last_command = None`), and
whenever the serial link is present and open it attempts exactly one
STOP transmission, regardless of `last_command` (the dedup check is
bypassed, even if STOP was the last command sent). -/
theorem claim_C3 :
    ∀ st : ArduinoState,
      (close st).1 = ⟨none, false, false⟩
      ∧ (st.serial_open = true →
          close st = (⟨none, false, false⟩, ["STOP"])) := by
  intro st
  exact ⟨rfl, fun h => by simp [close, h]⟩

/-- Witness for claim C3: a state whose last command is already STOP
still gets a STOP transmitted on close. -/
theorem claim_C3_witness :
    close ⟨some "STOP", true, true⟩ = (⟨none, false, false⟩, ["STOP"]) :=
  (claim_C3 ⟨some "STOP", true, true⟩).2 rfl

/-- Claim C7: sending a valid command equal to `last_command` returns
success, performs no transmission and leaves the state unchanged; and
sending STOP twice in a row from a connected, open state whose last
command differs from STOP performs exactly one transmission in total. -/
theorem claim_C7 :
    (∀ (st : ArduinoState) (cmd : String) (wOk : Bool),
      cmd ∈ valid_commands → some cmd = st.last_command →
      send_command st cmd wOk = ⟨true, st, []⟩)
    ∧ ∀ (st : ArduinoState) (w2 : Bool),
        st.last_command ≠ some "STOP" → st.connected = true →
        st.serial_open = true →
        (send_command st "STOP" true).writes
          ++ (send_command (send_command st "STOP" true).state "STOP"
                w2).writes
          = ["STOP"] := by
  constructor
  · intro st cmd wOk hv heq
    simp [send_command, hv, heq]
  · intro st w2 hne hc hs
    have hne2 : ¬ some "STOP" = st.last_command := fun h => hne h.symm
    have h1 : send_command st "STOP" true
        = ⟨true, { st with last_command := some "STOP" }, ["STOP"]⟩ := by
      simp [send_command, hne2, hc, hs, valid_commands]
    rw [h1]
    simp [send_command, valid_commands]

/-- Witness for claim C7: dedup no-op on FORWARD, and one single
transmission across STOP-then-STOP from a fresh connected state. -/
theorem claim_C7_witness :
    send_command ⟨some "FORWARD", true, true⟩ "FORWARD" true
      = ⟨true, ⟨some "FORWARD", true, true⟩, []⟩
    ∧ (send_command ⟨none, true, true⟩ "STOP" true).writes
        ++ (send_command (send_command ⟨none, true, true⟩ "STOP" true).state
              "STOP" true).writes
        = ["STOP"] :=
  ⟨claim_C7.1 ⟨some "FORWARD", true, true⟩ "FORWARD" true (by decide) rfl,
    claim_C7.2 ⟨none, true, true⟩ true (by decide) rfl rfl⟩

/-! ### Arbiter theorems (claims C2, C8) -/

/-- Claim C2: in hybrid mode (`force_mode = None`), whenever the sectors
are not all clear (`path_clear = false`), `decision_logic` returns the
avoidance command and sets mode `VFH_ACTIVE`, regardless of the marker
observation (detected or not, any distance). -/
theorem claim_C2 :
    ∀ (cfg : ControlConfig) (ss : List (String × String))
      (vfh_cmd : Option String) (ar : ArucoResult) (ac : Option String),
      decision_logic none cfg false ss vfh_cmd ar ac
        = (vfh_cmd, "VFH_ACTIVE") := by
  intro cfg ss vfh_cmd ar ac
  simp [decision_logic]

/-- Claim C8: in hybrid mode with all sectors clear and a marker
detected, the result is (STOP, ARUCO_REACHED) iff the marker distance
is known and strictly below the approach distance; with an unknown
distance or a distance not below it, the result is the tracking command
with mode ARUCO_TRACKING.  The spec scenario (distance 0.3 m, approach
0.5 m) yields (STOP, ARUCO_REACHED). -/
theorem claim_C8 :
    ∀ (cfg : ControlConfig) (ss : List (String × String))
      (vfh_cmd : Option String) (dist : Option ℚ) (ac : Option String),
      (decision_logic none cfg true ss vfh_cmd ⟨true, dist⟩ ac
          = (some "STOP", "ARUCO_REACHED")
        ↔ ∃ d, dist = some d ∧ d < cfg.approach_distance)
      ∧ decision_logic none cfg true ss vfh_cmd ⟨true, dist⟩ ac
          = (match dist with
             | some d =>
               if d < cfg.approach_distance then
                 (some "STOP", "ARUCO_REACHED")
               else (ac, "ARUCO_TRACKING")
             | none => (ac, "ARUCO_TRACKING"))
      ∧ decision_logic none ⟨1/2, "STOP"⟩ true ss vfh_cmd
          ⟨true, some (3/10)⟩ ac = (some "STOP", "ARUCO_REACHED") := by
  intro cfg ss vfh_cmd dist ac
  have hgen : ∀ (cfg2 : ControlConfig) (dist2 : Option ℚ),
      decision_logic none cfg2 true ss vfh_cmd ⟨true, dist2⟩ ac
        = (match dist2 with
           | some d =>
             if d < cfg2.approach_distance then
               (some "STOP", "ARUCO_REACHED")
             else (ac, "ARUCO_TRACKING")
           | none => (ac, "ARUCO_TRACKING")) := by
    intro cfg2 dist2
    cases dist2 with
    | none => simp [decision_logic]
    | some d =>
      by_cases hd : d < cfg2.approach_distance
      · simp [decision_logic, hd]
      · simp [decision_logic, hd]
  refine ⟨?_, hgen cfg dist, ?_⟩
  · rw [hgen cfg dist]
    cases dist with
    | none => simp
    | some d =>
      by_cases hd : d < cfg.approach_distance
      · simp [hd]
      · simp [hd]
  · rw [hgen ⟨1/2, "STOP"⟩ (some (3/10))]
    norm_num

/-! ### Control-loop dispatch theorems (claim C10) -/

/-- Claim C10 is false on the code: with the freshly initialized loop
state (whose `current_command` is STOP) and an idle cycle whose arbiter
decision is STOP (equal to `current_command`), pressing the emergency
stop key makes the loop invoke `send_command` with STOP in that cycle
and again in the next identical cycle — so `send_command` is invoked in
a cycle where the arbiter's final command does not differ from
`self.current_command`, and the dispatcher receives the same command in
two consecutive cycles. -/
theorem claim_C10_counterexample :
    (decision_logic none ⟨1/2, "STOP"⟩ true [] (some "FORWARD")
        ⟨false, none⟩ none).1
      = (initControlState ⟨none, false, false⟩).current_command
    ∧ (run_cycle ⟨1/2, "STOP"⟩ (initControlState ⟨none, false, false⟩)
        ⟨true, [], some "FORWARD", ⟨false, none⟩, none, 32, true⟩).2.1
      = [some "STOP"]
    ∧ (run_cycle ⟨1/2, "STOP"⟩
        (run_cycle ⟨1/2, "STOP"⟩ (initControlState ⟨none, false, false⟩)
          ⟨true, [], some "FORWARD", ⟨false, none⟩, none, 32, true⟩).1
        ⟨true, [], some "FORWARD", ⟨false, none⟩, none, 32, true⟩).2.1
      = [some "STOP"] := by
  decide

/-- Claim C10 amended: `self.current_command` is initialized to STOP,
and in any cycle whose key input is not the emergency-stop key the loop
invokes `send_command` exactly when the arbiter's final command differs
from `self.current_command` (updating it afterwards); hence through the
arbiter path an initial STOP decision is never forwarded.  (The
emergency-stop key additionally invokes `send_command` with STOP
irrespective of `self.current_command`.) -/
theorem claim_C10_amended (cfg : ControlConfig) (st : ControlState)
    (inp : CycleInput) (hkey : inp.key ≠ 32) :
    (initControlState st.arduino).current_command = some "STOP"
    ∧ ((decision_logic st.force_mode cfg inp.path_clear inp.sector_status
          inp.vfh_cmd inp.aruco inp.aruco_cmd).1 = st.current_command →
        (run_cycle cfg st inp).2.1 = [])
    ∧ ((decision_logic st.force_mode cfg inp.path_clear inp.sector_status
          inp.vfh_cmd inp.aruco inp.aruco_cmd).1 ≠ st.current_command →
        (run_cycle cfg st inp).2.1
            = [(decision_logic st.force_mode cfg inp.path_clear
                inp.sector_status inp.vfh_cmd inp.aruco inp.aruco_cmd).1]
          ∧ (run_cycle cfg st inp).1.current_command
            = (decision_logic st.force_mode cfg inp.path_clear
                inp.sector_status inp.vfh_cmd inp.aruco inp.aruco_cmd).1)
    := by
  have hkb : ∀ (s : ControlState) (w : Bool),
      (handle_keyboard s inp.key w).2.1 = []
      ∧ (handle_keyboard s inp.key w).1.current_command
          = s.current_command := by
    intro s w
    unfold handle_keyboard
    split_ifs <;> simp_all
  refine ⟨rfl, ?_, ?_⟩
  · intro heq
    simp only [run_cycle, heq, ne_eq, not_true_eq_false, if_false,
      ite_self]
    simp [hkb, heq]
  · intro hne
    simp only [run_cycle]
    simp [hkb, hne]

/-- Witness for the amended claim C10: an idle cycle with no key press
and arbiter decision STOP equal to the initial `current_command` invokes
`send_command` zero times. -/
theorem claim_C10_amended_witness :
    (initControlState ⟨none, false, false⟩).current_command = some "STOP"
    ∧ ((decision_logic none ⟨1/2, "STOP"⟩ true [] (some "FORWARD")
          ⟨false, none⟩ none).1
        = (initControlState ⟨none, false, false⟩).current_command →
        (run_cycle ⟨1/2, "STOP"⟩ (initControlState ⟨none, false, false⟩)
          ⟨true, [], some "FORWARD", ⟨false, none⟩, none, 255, true⟩).2.1
          = []) :=
  ⟨(claim_C10_amended ⟨1/2, "STOP"⟩ (initControlState ⟨none, false, false⟩)
      ⟨true, [], some "FORWARD", ⟨false, none⟩, none, 255, true⟩
      (by decide)).1,
    (claim_C10_amended ⟨1/2, "STOP"⟩ (initControlState ⟨none, false, false⟩)
      ⟨true, [], some "FORWARD", ⟨false, none⟩, none, 255, true⟩
      (by decide)).2.1⟩

/-! ### Avoidance-controller theorems (claims C4, C6, C9) -/

/-- A lookup that yields "High" implies the obstacle-detected test of
`get_vfh_command` is true. -/
theorem obstacle_of_dictGetD_high (ss : List (String × String))
    (k : String) (h : dictGetD ss k "Low" = "High") :
    (dictValues ss).any (· == "High") = true := by
  unfold dictGetD at h
  cases hf : ss.find? (fun p => p.1 == k) with
  | none => rw [hf] at h; exact absurd h (by decide)
  | some p =>
    rw [hf] at h
    have hmem : p ∈ ss := List.mem_of_find?_eq_some hf
    rw [List.any_eq_true]
    exact ⟨p.2, List.mem_map_of_mem Prod.snd hmem,
      by simp only [beq_iff_eq]; exact h⟩

/-- The returned command of `get_vfh_command` is the `current_command`
of the updated state, in every branch. -/
theorem get_vfh_output (td fd : ℚ) (st : VFHState)
    (ss : List (String × String)) (now : ℚ) :
    (get_vfh_command td fd st ss now).2
      = (get_vfh_command td fd st ss now).1.current_command := by
  simp only [get_vfh_command]
  split <;> rfl

/-- When an obstacle is detected, the updated state's `turn_direction`
is exactly the pending-turn chain applied to the old one. -/
theorem get_vfh_turn (td fd : ℚ) (st : VFHState)
    (ss : List (String × String)) (now : ℚ)
    (hobs : (dictValues ss).any (· == "High") = true) :
    (get_vfh_command td fd st ss now).1.turn_direction
      = pending_turn st.turn_direction ss := by
  simp only [get_vfh_command, hobs, not_true_eq_false, if_false,
    Bool.true_eq_false]
  split_ifs <;> rfl

/-- Claim C4: with an obstacle detected, `get_vfh_command` switches
FORWARD to the pending turn direction when the forward debounce has
elapsed, switches LEFT/RIGHT back to FORWARD when the turn debounce has
elapsed, resets the timer on each switch, leaves state unchanged inside
the debounce windows, and returns the resulting command; in the spec
scenario (left-front Obstructed, forward duration 0.4 s) a call at t=0
just after a reset to FORWARD returns FORWARD and a call at t=0.5 s
returns RIGHT. -/
theorem claim_C4 :
    (∀ (td fd : ℚ) (st : VFHState) (ss : List (String × String)) (now : ℚ),
      (dictValues ss).any (· == "High") = true →
      (get_vfh_command td fd st ss now).2
          = (get_vfh_command td fd st ss now).1.current_command
      ∧ (get_vfh_command td fd st ss now).1.turn_direction
          = pending_turn st.turn_direction ss
      ∧ (st.current_command = some "FORWARD" →
          (now - st.command_start_time ≥ fd →
            (get_vfh_command td fd st ss now).1.current_command
                = pending_turn st.turn_direction ss
            ∧ (get_vfh_command td fd st ss now).1.command_start_time = now)
          ∧ (¬ now - st.command_start_time ≥ fd →
            (get_vfh_command td fd st ss now).1.current_command
                = st.current_command
            ∧ (get_vfh_command td fd st ss now).1.command_start_time
                = st.command_start_time))
      ∧ ((st.current_command = some "LEFT"
            ∨ st.current_command = some "RIGHT") →
          (now - st.command_start_time ≥ td →
            (get_vfh_command td fd st ss now).1.current_command
                = some "FORWARD"
            ∧ (get_vfh_command td fd st ss now).1.command_start_time = now)
          ∧ (¬ now - st.command_start_time ≥ td →
            (get_vfh_command td fd st ss now).1.current_command
                = st.current_command
            ∧ (get_vfh_command td fd st ss now).1.command_start_time
                = st.command_start_time))
      ∧ (st.current_command ≠ some "FORWARD" →
         st.current_command ≠ some "LEFT" →
         st.current_command ≠ some "RIGHT" →
           (get_vfh_command td fd st ss now).1.current_command
               = st.current_command
           ∧ (get_vfh_command td fd st ss now).1.command_start_time
               = st.command_start_time))
    ∧ (get_vfh_command (1/5) (2/5) (initVFHState 0) ssLeftFront 0).2
        = some "FORWARD"
    ∧ (get_vfh_command (1/5) (2/5)
        (get_vfh_command (1/5) (2/5) (initVFHState 0) ssLeftFront 0).1
        ssLeftFront (1/2)).2 = some "RIGHT" := by
  refine ⟨?_,
    by norm_num [get_vfh_command, initVFHState, ssLeftFront, dictValues,
      dictGetD, pending_turn, List.find?],
    by
      norm_num [get_vfh_command, initVFHState, ssLeftFront, dictValues,
        dictGetD, pending_turn, List.find?]
      decide⟩
  intro td fd st ss now hobs
  refine ⟨get_vfh_output td fd st ss now, get_vfh_turn td fd st ss now hobs,
    ?_, ?_, ?_⟩
  · intro hF
    constructor
    · intro ht
      simp [get_vfh_command, hobs, hF, ht]
    · intro ht
      simp [get_vfh_command, hobs, hF, ht]
  · intro hLR
    have hF : ¬ st.current_command = some "FORWARD" := by
      rcases hLR with h | h <;> simp [h]
    constructor
    · intro ht
      simp [get_vfh_command, hobs, hF, hLR, ht]
    · intro ht
      simp [get_vfh_command, hobs, hF, hLR, ht]
  · intro hF hL hR
    have hLR : ¬ (st.current_command = some "LEFT"
        ∨ st.current_command = some "RIGHT") := by
      rintro (h | h) <;> simp_all
    simp [get_vfh_command, hobs, hF, hLR]

/-- Witness for claim C4 at the scenario input: a FORWARD state past the
forward debounce with the left-front sector Obstructed switches to the
pending direction RIGHT and resets the timer to now. -/
theorem claim_C4_witness :
    ((get_vfh_command (1/5) (2/5) ⟨some "FORWARD", 0, some "RIGHT"⟩
        ssLeftFront (1/2)).1.current_command
      = pending_turn (some "RIGHT") ssLeftFront
    ∧ (get_vfh_command (1/5) (2/5) ⟨some "FORWARD", 0, some "RIGHT"⟩
        ssLeftFront (1/2)).1.command_start_time = 1/2) :=
  ((claim_C4.1 (1/5) (2/5) ⟨some "FORWARD", 0, some "RIGHT"⟩ ssLeftFront
      (1/2) (by decide)).2.2.1 rfl).1 (by norm_num)

/-- Claim C6: with an obstacle detected, the pending turn direction
follows first-match precedence — left or left-front Obstructed gives
RIGHT; otherwise right or right-front Obstructed gives LEFT; otherwise
a center obstruction gives LEFT when the left-front sector is Clear and
RIGHT otherwise. -/
theorem claim_C6 :
    ∀ (td fd : ℚ) (st : VFHState) (ss : List (String × String)) (now : ℚ),
      (dictGetD ss "Kiri" "Low" = "High"
          ∨ dictGetD ss "Kiri-Depan" "Low" = "High" →
        (get_vfh_command td fd st ss now).1.turn_direction = some "RIGHT")
      ∧ (dictGetD ss "Kiri" "Low" ≠ "High" →
         dictGetD ss "Kiri-Depan" "Low" ≠ "High" →
         (dictGetD ss "Kanan" "Low" = "High"
            ∨ dictGetD ss "Kanan-Depan" "Low" = "High") →
        (get_vfh_command td fd st ss now).1.turn_direction = some "LEFT")
      ∧ (dictGetD ss "Kiri" "Low" ≠ "High" →
         dictGetD ss "Kiri-Depan" "Low" ≠ "High" →
         dictGetD ss "Kanan" "Low" ≠ "High" →
         dictGetD ss "Kanan-Depan" "Low" ≠ "High" →
         dictGetD ss "Tengah" "Low" = "High" →
        (get_vfh_command td fd st ss now).1.turn_direction
          = (if dictGetD ss "Kiri-Depan" "Low" = "Low" then some "LEFT"
             else some "RIGHT")) := by
  intro td fd st ss now
  refine ⟨?_, ?_, ?_⟩
  · intro h
    have hobs : (dictValues ss).any (· == "High") = true := by
      rcases h with h | h <;> exact obstacle_of_dictGetD_high ss _ h
    rw [get_vfh_turn td fd st ss now hobs]
    rcases h with h | h <;> simp [pending_turn, h]
  · intro h1 h2 h
    have hobs : (dictValues ss).any (· == "High") = true := by
      rcases h with h | h <;> exact obstacle_of_dictGetD_high ss _ h
    rw [get_vfh_turn td fd st ss now hobs]
    rcases h with h | h <;> simp [pending_turn, h1, h2, h]
  · intro h1 h2 h3 h4 h
    have hobs : (dictValues ss).any (· == "High") = true :=
      obstacle_of_dictGetD_high ss _ h
    rw [get_vfh_turn td fd st ss now hobs]
    simp [pending_turn, h1, h2, h3, h4, h]

/-- Witness for claim C6: the left-front-Obstructed scenario status
yields pending direction RIGHT. -/
theorem claim_C6_witness :
    (get_vfh_command (1/5) (2/5) ⟨some "FORWARD", 0, none⟩ ssLeftFront
        0).1.turn_direction = some "RIGHT" :=
  (claim_C6 (1/5) (2/5) ⟨some "FORWARD", 0, none⟩ ssLeftFront 0).1
    (Or.inr (by decide))

/-- A status list keyed (in order) by the five sector labels is five
pairs with those exact keys. -/
theorem keyed_shape (ss : List (String × String))
    (h : ss.map Prod.fst = sector_labels) :
    ∃ v1 v2 v3 v4 v5, ss = [("Kiri", v1), ("Kiri-Depan", v2),
      ("Tengah", v3), ("Kanan-Depan", v4), ("Kanan", v5)] := by
  rcases ss with _ | ⟨⟨k1, v1⟩, _ | ⟨⟨k2, v2⟩, _ | ⟨⟨k3, v3⟩,
    _ | ⟨⟨k4, v4⟩, _ | ⟨⟨k5, v5⟩, rest⟩⟩⟩⟩⟩ <;>
    simp [sector_labels] at h
  obtain ⟨h1, h2, h3, h4, h5, h6⟩ := h
  exact ⟨v1, v2, v3, v4, v5, by simp [h1, h2, h3, h4, h5, h6]⟩

/-- On a five-label status, when some value is "High" the pending-turn
chain always produces LEFT or RIGHT. -/
theorem pending_turn_mem (old : Option String) (v1 v2 v3 v4 v5 : String)
    (hobs : v1 = "High" ∨ v2 = "High" ∨ v3 = "High" ∨ v4 = "High"
      ∨ v5 = "High") :
    pending_turn old [("Kiri", v1), ("Kiri-Depan", v2), ("Tengah", v3),
        ("Kanan-Depan", v4), ("Kanan", v5)]
      ∈ [some "LEFT", some "RIGHT"] := by
  have e1 : dictGetD [("Kiri", v1), ("Kiri-Depan", v2), ("Tengah", v3),
      ("Kanan-Depan", v4), ("Kanan", v5)] "Kiri" "Low" = v1 := rfl
  have e2 : dictGetD [("Kiri", v1), ("Kiri-Depan", v2), ("Tengah", v3),
      ("Kanan-Depan", v4), ("Kanan", v5)] "Kiri-Depan" "Low" = v2 := rfl
  have e3 : dictGetD [("Kiri", v1), ("Kiri-Depan", v2), ("Tengah", v3),
      ("Kanan-Depan", v4), ("Kanan", v5)] "Tengah" "Low" = v3 := rfl
  have e4 : dictGetD [("Kiri", v1), ("Kiri-Depan", v2), ("Tengah", v3),
      ("Kanan-Depan", v4), ("Kanan", v5)] "Kanan-Depan" "Low" = v4 := rfl
  have e5 : dictGetD [("Kiri", v1), ("Kiri-Depan", v2), ("Tengah", v3),
      ("Kanan-Depan", v4), ("Kanan", v5)] "Kanan" "Low" = v5 := rfl
  simp only [pending_turn, e1, e2, e3, e4, e5]
  split_ifs <;> simp_all

/-- One `get_vfh_command` step on a five-label status keeps the current
command in {FORWARD, LEFT, RIGHT}. -/
theorem vfh_step_inv (td fd : ℚ) (st : VFHState)
    (ss : List (String × String)) (now : ℚ)
    (hkeys : ss.map Prod.fst = sector_labels)
    (hcur : st.current_command
      ∈ [some "FORWARD", some "LEFT", some "RIGHT"]) :
    (get_vfh_command td fd st ss now).1.current_command
      ∈ [some "FORWARD", some "LEFT", some "RIGHT"] := by
  obtain ⟨v1, v2, v3, v4, v5, rfl⟩ := keyed_shape ss hkeys
  by_cases hobs : (dictValues [("Kiri", v1), ("Kiri-Depan", v2),
      ("Tengah", v3), ("Kanan-Depan", v4), ("Kanan", v5)]).any
        (· == "High") = true
  · have hv : v1 = "High" ∨ v2 = "High" ∨ v3 = "High" ∨ v4 = "High"
        ∨ v5 = "High" := by
      simpa [dictValues] using hobs
    have hpend := pending_turn_mem st.turn_direction v1 v2 v3 v4 v5 hv
    simp only [get_vfh_command, hobs, not_true_eq_false, if_false,
      Bool.true_eq_false]
    split_ifs <;> simp_all
  · simp only [get_vfh_command, hobs]
    split_ifs <;> simp_all

/-- The fold of `get_vfh_command` steps keeps the invariant. -/
theorem runVFH_inv (td fd : ℚ)
    (calls : List (List (String × String) × ℚ)) :
    ∀ st : VFHState, (∀ c ∈ calls, c.1.map Prod.fst = sector_labels) →
      st.current_command ∈ [some "FORWARD", some "LEFT", some "RIGHT"] →
      (runVFH td fd st calls).current_command
        ∈ [some "FORWARD", some "LEFT", some "RIGHT"] := by
  induction calls with
  | nil => intro st _ h; exact h
  | cons c cs ih =>
    intro st hc h
    exact ih _ (fun d hd => hc d (List.mem_cons_of_mem c hd))
      (vfh_step_inv td fd st c.1 c.2 (hc c (List.mem_cons_self c cs)) h)

/-- Claim C9: the controller command starts at FORWARD, and after any
sequence of `get_vfh_command` calls on statuses keyed by the five sector
labels it stays in {FORWARD, LEFT, RIGHT}; hence a further call returns
FORWARD, LEFT or RIGHT — never STOP and never the null command. -/
theorem claim_C9 :
    ∀ (td fd t0 : ℚ) (calls : List (List (String × String) × ℚ)),
      (∀ c ∈ calls, c.1.map Prod.fst = sector_labels) →
      (initVFHState t0).current_command = some "FORWARD"
      ∧ (runVFH td fd (initVFHState t0) calls).current_command
          ∈ [some "FORWARD", some "LEFT", some "RIGHT"]
      ∧ ∀ (ss : List (String × String)) (now : ℚ),
          ss.map Prod.fst = sector_labels →
          (get_vfh_command td fd (runVFH td fd (initVFHState t0) calls)
              ss now).2 ∈ [some "FORWARD", some "LEFT", some "RIGHT"]
          ∧ (get_vfh_command td fd (runVFH td fd (initVFHState t0) calls)
              ss now).2 ≠ some "STOP"
          ∧ (get_vfh_command td fd (runVFH td fd (initVFHState t0) calls)
              ss now).2 ≠ none := by
  intro td fd t0 calls hcalls
  have hrun := runVFH_inv td fd calls (initVFHState t0) hcalls
    (by simp [initVFHState])
  refine ⟨rfl, hrun, ?_⟩
  intro ss now hss
  have hstep := vfh_step_inv td fd _ ss now hss hrun
  rw [get_vfh_output]
  refine ⟨hstep, ?_, ?_⟩ <;>
    (rcases (by simpa using hstep : _ = some "FORWARD" ∨ _) with h | h | h <;>
      simp [h])

/-- Witness for claim C9: a run consisting of one obstructed call keeps
the command in {FORWARD, LEFT, RIGHT}, and a further all-clear call
returns a command in that set. -/
theorem claim_C9_witness :
    (runVFH (1/5) (2/5) (initVFHState 0) [(ssLeftFront, 1/2)]).current_command
      ∈ [some "FORWARD", some "LEFT", some "RIGHT"]
    ∧ (get_vfh_command (1/5) (2/5)
        (runVFH (1/5) (2/5) (initVFHState 0) [(ssLeftFront, 1/2)])
        ssAllClear 1).2 ∈ [some "FORWARD", some "LEFT", some "RIGHT"] := by
  have h := claim_C9 (1/5) (2/5) 0 [(ssLeftFront, 1/2)] (by decide)
  exact ⟨h.2.1, (h.2.2 ssAllClear 1 (by decide)).1⟩

/-! ### Sector-classifier theorems (claim C5) -/

/-- Membership in the valid-point list is exactly: the grid entry exists
and is positive. -/
theorem mem_validPoints (depth : List (List ℝ)) (p : ℕ × ℕ × ℝ) :
    p ∈ validPoints depth
      ↔ depthAt depth p.1 p.2.1 = some p.2.2 ∧ 0 < p.2.2 := by
  obtain ⟨r, c, z⟩ := p
  simp only [validPoints, List.mem_flatten, List.mem_map]
  constructor
  · rintro ⟨s, ⟨⟨ri, row⟩, hrow, rfl⟩, hmem⟩
    simp only [List.mem_filterMap] at hmem
    obtain ⟨⟨ci, zz⟩, hcz, hsome⟩ := hmem
    by_cases h0 : (0 : ℝ) < zz
    · rw [if_pos h0] at hsome
      obtain ⟨h1, h2, h3⟩ : ri = r ∧ ci = c ∧ zz = z := by
        simpa using hsome
      subst h1; subst h2; subst h3
      have hr : depth[ri]? = some row :=
        List.mk_mem_enum_iff_getElem?.mp hrow
      have hc : row[ci]? = some zz :=
        List.mk_mem_enum_iff_getElem?.mp hcz
      exact ⟨by simp [depthAt, hr, hc], h0⟩
    · rw [if_neg h0] at hsome
      exact absurd hsome (by simp)
  · rintro ⟨hat, h0⟩
    obtain ⟨row, hr, hc⟩ :
        ∃ row, depth[r]? = some row ∧ row[c]? = some z := by
      simpa [depthAt, Option.bind_eq_some] using hat
    refine ⟨(row.enum.filterMap (fun cz =>
        if 0 < cz.2 then some (r, cz.1, cz.2) else none)),
      ⟨(r, row), List.mk_mem_enum_iff_getElem?.mpr hr, rfl⟩, ?_⟩
    simp only [List.mem_filterMap]
    exact ⟨(c, z), List.mk_mem_enum_iff_getElem?.mpr hc, by rw [if_pos h0]⟩

/-- Membership in a sector's depth list is exactly: some valid grid
entry whose azimuth bin test passes has that depth. -/
theorem mem_sectorDepths (g : VFHGeom) (depth : List (List ℝ)) (i : ℕ)
    (z : ℝ) :
    z ∈ sectorDepths g depth i
      ↔ ∃ r c, depthAt depth r c = some z ∧ 0 < z
          ∧ (i : ℝ) * (Real.pi / (g.num_sectors : ℝ)) ≤ thetaPoint g c z
          ∧ thetaPoint g c z
            < ((i : ℝ) + 1) * (Real.pi / (g.num_sectors : ℝ)) := by
  simp only [sectorDepths, List.mem_filterMap]
  constructor
  · rintro ⟨⟨r, c, zz⟩, hmem, hsome⟩
    by_cases hcond : (i : ℝ) * (Real.pi / (g.num_sectors : ℝ))
          ≤ thetaPoint g c zz
        ∧ thetaPoint g c zz < ((i : ℝ) + 1) * (Real.pi / (g.num_sectors : ℝ))
    · rw [if_pos hcond] at hsome
      have hzz : zz = z := by simpa using hsome
      subst hzz
      rw [mem_validPoints] at hmem
      exact ⟨r, c, hmem.1, hmem.2, hcond.1, hcond.2⟩
    · rw [if_neg hcond] at hsome
      exact absurd hsome (by simp)
  · rintro ⟨r, c, hat, h0, hlo, hhi⟩
    refine ⟨(r, c, z), (mem_validPoints depth (r, c, z)).mpr ⟨hat, h0⟩, ?_⟩
    rw [if_pos ⟨hlo, hhi⟩]

/-- The min?-based status computation is "High" exactly when some
assigned depth is strictly below the threshold (equivalently, the
minimum assigned depth is, and the no-point sector is "Low"). -/
theorem sectorStatusOf_high_iff (g : VFHGeom) (depth : List (List ℝ))
    (i : ℕ) :
    sectorStatusOf g depth i = "High"
      ↔ ∃ z ∈ sectorDepths g depth i, z < g.threshold_distance := by
  unfold sectorStatusOf
  cases hm : (sectorDepths g depth i).min? with
  | none =>
    have he : sectorDepths g depth i = [] := List.min?_eq_none_iff.mp hm
    rw [he]
    simp
  | some m =>
    constructor
    · intro h
      have h2 : (if m < g.threshold_distance then "High" else "Low")
          = "High" := h
      have hmlt : m < g.threshold_distance := by
        by_cases hlt : m < g.threshold_distance
        · exact hlt
        · rw [if_neg hlt] at h2
          exact absurd h2 (by decide)
      exact ⟨m, List.min?_mem (fun a b => min_choice a b) hm, hmlt⟩
    · rintro ⟨z, hz, hzt⟩
      have hle : m ≤ z :=
        ((List.le_min?_iff (fun a b c => le_min_iff) hm).mp (le_refl m)) z hz
      show (if m < g.threshold_distance then "High" else "Low") = "High"
      rw [if_pos (lt_of_le_of_lt hle hzt)]

/-- Claim C5: `analyze_sectors` marks the `i`-th labelled sector "High"
iff some valid reading (`z > 0`) whose yaw-rotated azimuth, reduced
modulo pi, falls in the bin `[i*pi/N, (i+1)*pi/N)` has original depth
strictly below the threshold (i.e. the minimum such depth is below it);
a sector with no assigned valid point is "Low", and for an absent depth
map every sector lookup yields "Low". -/
theorem claim_C5 :
    ∀ (g : VFHGeom) (depth : List (List ℝ)) (i : Fin 5),
      (dictGetD (analyze_sectors g (some depth))
          (sector_labels.getD i.val "") "Low" = "High"
        ↔ ∃ r c z, depthAt depth r c = some z ∧ 0 < z
            ∧ (i.val : ℝ) * (Real.pi / (g.num_sectors : ℝ))
              ≤ thetaPoint g c z
            ∧ thetaPoint g c z
              < ((i.val : ℝ) + 1) * (Real.pi / (g.num_sectors : ℝ))
            ∧ z < g.threshold_distance)
      ∧ ∀ label : String,
          dictGetD (analyze_sectors g none) label "Low" = "Low" := by
  intro g depth i
  have key : ∀ j : ℕ,
      (sectorStatusOf g depth j = "High"
        ↔ ∃ r c z, depthAt depth r c = some z ∧ 0 < z
            ∧ (j : ℝ) * (Real.pi / (g.num_sectors : ℝ)) ≤ thetaPoint g c z
            ∧ thetaPoint g c z
              < ((j : ℝ) + 1) * (Real.pi / (g.num_sectors : ℝ))
            ∧ z < g.threshold_distance) := by
    intro j
    rw [sectorStatusOf_high_iff]
    constructor
    · rintro ⟨z, hz, hlt⟩
      obtain ⟨r, c, h1, h2, h3, h4⟩ := (mem_sectorDepths g depth j z).mp hz
      exact ⟨r, c, z, h1, h2, h3, h4, hlt⟩
    · rintro ⟨r, c, z, h1, h2, h3, h4, hlt⟩
      exact ⟨z, (mem_sectorDepths g depth j z).mpr ⟨r, c, h1, h2, h3, h4⟩,
        hlt⟩
  constructor
  · fin_cases i
    · exact key 0
    · exact key 1
    · exact key 2
    · exact key 3
    · exact key 4
  · intro label
    unfold dictGetD
    cases hf : (analyze_sectors g none).find? (fun p => p.1 == label) with
    | none => rfl
    | some p =>
      have hmem : p ∈ analyze_sectors g none :=
        List.mem_of_find?_eq_some hf
      simp only [analyze_sectors, List.mem_map] at hmem
      obtain ⟨l, _, hp⟩ := hmem
      rw [← hp]

end DDMRVFH
